import Mathlib

/-!
Verification of the reconciliation-helper layer of the aws-iam-operator
(src/controllers/helpers.go), shallowly embedded in Lean.

Modelling conventions:
- A Go `error` value is `Option GoError` (`none` is Go `nil`).
- The external `aws.InstanceError` interface is modelled by the
  `GoError.instanceErr` constructor, carrying an `InstanceErrorCode`.
- External calls (the provider operations, the status writer) are modelled
  by passing their responses in as arguments; the calls a function makes are
  recorded in an explicit trace so "no call is made" is provable.
- The Go closure-valued `StatusUpdater` is modelled as a tagged value (the
  source constructs exactly three closures: success, error(reason), no-op)
  together with `applyStatusUpdater`, the embedding of the closure bodies.
-/

/-- Error code enumeration of the external cloud-objects `aws` package, of
which only `ErrAWSInstanceNotYetCreated` is consulted by this repository. -/
inductive InstanceErrorCode where
  | ErrAWSInstanceNotYetCreated
  | OtherCode (name : String)
deriving DecidableEq, Repr

/-- A Go error value: either a typed `aws.InstanceError` exposing an error
code, or any other error, each carrying the text its `Error()` returns. -/
inductive GoError where
  | instanceErr (code : InstanceErrorCode) (msg : String)
  | simpleErr (msg : String)
deriving DecidableEq, Repr

/-- `err.Error()`: the message text of a Go error. -/
def GoError.errText : GoError → String
  | .instanceErr _ msg => msg
  | .simpleErr msg => msg

/-- The sync-state enumeration of `api/v1beta1` (`OkSyncState`,
`ErrorSyncState`); a record starts with the state unset. -/
inductive SyncState where
  | OkSyncState
  | ErrorSyncState
  | UnsetSyncState
deriving DecidableEq, Repr

/-- The `AWSObjectStatus` record of `api/v1beta1`: the status fields this
layer mutates (ARN, Message, State, LastSyncAttempt). -/
structure AWSObjectStatus where
  ARN : String
  Message : String
  State : SyncState
  LastSyncAttempt : String
deriving DecidableEq, Repr

/-- The `aws.Instance` capability as seen by this layer: the outcomes its
Create/Update/Delete operations would produce against the provider in this
reconciliation pass, and its resolved ARN string. -/
structure Instance where
  createResult : Option GoError
  updateResult : Option GoError
  deleteResult : Option GoError
  arn : String
deriving DecidableEq, Repr

/-- Which provider operation a dispatcher invoked on the instance. -/
inductive ProviderOp where
  | create
  | update
  | delete
deriving DecidableEq, Repr

/-- The three status updaters the source constructs. -/
inductive StatusUpdater where
  | success
  | error (reason : String)
  | doNothing
deriving DecidableEq, Repr

/-- `SuccessStatusUpdater()` of helpers.go. -/
def SuccessStatusUpdater : StatusUpdater := .success

/-- `ErrorStatusUpdater(reason)` of helpers.go. -/
def ErrorStatusUpdater (reason : String) : StatusUpdater := .error reason

/-- `DoNothingStatusUpdater` of helpers.go. -/
def DoNothingStatusUpdater : StatusUpdater := .doNothing

/-- `containsString` of helpers.go: linear scan with early return. -/
def containsString : List String → String → Bool
  | [], _ => false
  | item :: rest, s => if item = s then true else containsString rest s

/-- `removeString` of helpers.go: rebuild the slice, skipping matches. -/
def removeString : List String → String → List String
  | [], _ => []
  | item :: rest, s =>
    if item = s then removeString rest s else item :: removeString rest s

/-- `ignoreDoesNotExistError` of helpers.go: nil passes through; a typed
instance error whose code is `ErrAWSInstanceNotYetCreated` is squashed to
nil; every other error is returned unchanged. -/
def ignoreDoesNotExistError (err : Option GoError) : Option GoError :=
  match err with
  | some (.instanceErr code msg) =>
    if code = .ErrAWSInstanceNotYetCreated then none
    else some (.instanceErr code msg)
  | other => other

/-- `CreateAWSObject` of helpers.go. The pre-check's returned error comes in
as `preResult`; the result carries the chosen updater, the returned error,
and the trace of provider operations invoked on the instance. -/
def CreateAWSObject (ins : Instance) (preResult : Option GoError) :
    StatusUpdater × Option GoError × List ProviderOp :=
  match preResult with
  | some e => (ErrorStatusUpdater e.errText, some e, [])
  | none =>
    match ins.createResult with
    | some e => (ErrorStatusUpdater e.errText, some e, [.create])
    | none => (SuccessStatusUpdater, none, [.create])

/-- `UpdateAWSObject` of helpers.go. -/
def UpdateAWSObject (ins : Instance) (preResult : Option GoError) :
    StatusUpdater × Option GoError × List ProviderOp :=
  match preResult with
  | some e => (ErrorStatusUpdater e.errText, some e, [])
  | none =>
    match ins.updateResult with
    | some e => (ErrorStatusUpdater e.errText, some e, [.update])
    | none => (SuccessStatusUpdater, none, [.update])

/-- `DeleteAWSObject` of helpers.go: the delete error is passed through
`ignoreDoesNotExistError`; only an unclassified error is surfaced, and the
error branch reports the original error and its original text. -/
def DeleteAWSObject (ins : Instance) (preResult : Option GoError) :
    StatusUpdater × Option GoError × List ProviderOp :=
  match preResult with
  | some e => (ErrorStatusUpdater e.errText, some e, [])
  | none =>
    match ins.deleteResult with
    | some e =>
      if ignoreDoesNotExistError (some e) = none then
        (DoNothingStatusUpdater, none, [.delete])
      else
        (ErrorStatusUpdater e.errText, some e, [.delete])
    | none => (DoNothingStatusUpdater, none, [.delete])

/-- Month of a Go `time.Time`, for rendering the month abbreviation. -/
inductive Month where
  | jan | feb | mar | apr | may | jun | jul | aug | sep | oct | nov | dec
deriving DecidableEq, Repr

/-- Go's three-letter month abbreviation (`Jan` in the layout). -/
def monthAbbrev : Month → String
  | .jan => "Jan" | .feb => "Feb" | .mar => "Mar" | .apr => "Apr"
  | .may => "May" | .jun => "Jun" | .jul => "Jul" | .aug => "Aug"
  | .sep => "Sep" | .oct => "Oct" | .nov => "Nov" | .dec => "Dec"

/-- A wall-clock instant as Go's `time.Time` exposes it to formatting. -/
structure GoTime where
  year : Nat
  month : Month
  day : Nat
  hour : Nat
  minute : Nat
  second : Nat
  zoneOffsetMinutes : Int
deriving DecidableEq, Repr

/-- Zero-padded two-digit rendering (Go's `02`, `06`, `15`, `04` verbs). -/
def pad2 (n : Nat) : String :=
  if n < 10 then "0" ++ toString n else toString n

/-- Go's `-0700` numeric zone rendering: sign, two hour digits, two minute
digits. -/
def zoneOffsetStr (m : Int) : String :=
  let sign := if m < 0 then "-" else "+"
  let a := m.natAbs
  sign ++ pad2 (a / 60) ++ pad2 (a % 60)

/-- `time.Now().Format(time.RFC822Z)` on an instant: Go's RFC822Z layout is
`02 Jan 06 15:04 -0700` — zero-padded day, month abbreviation, two-digit
year, hour:minute, numeric zone offset. -/
def formatRFC822Z (t : GoTime) : String :=
  pad2 t.day ++ " " ++ monthAbbrev t.month ++ " " ++ pad2 (t.year % 100) ++
    " " ++ pad2 t.hour ++ ":" ++ pad2 t.minute ++ " " ++
    zoneOffsetStr t.zoneOffsetMinutes

/-- The timestamp format as the spec's words for claim C7 describe it:
day-month-year, then hour:minute:second, then a numeric zone offset. -/
def specClaimedTimestampFormat (t : GoTime) : String :=
  pad2 t.day ++ " " ++ monthAbbrev t.month ++ " " ++ pad2 (t.year % 100) ++
    " " ++ pad2 t.hour ++ ":" ++ pad2 t.minute ++ ":" ++ pad2 t.second ++
    " " ++ zoneOffsetStr t.zoneOffsetMinutes

/-- Outcome of running a status-updater closure: the status record after the
in-place mutation, how many times `sw.Update` was called, and the errors
that were logged (never propagated — the closure returns nothing). -/
structure UpdaterOutcome where
  status : AWSObjectStatus
  persistCalls : Nat
  logged : List GoError
deriving DecidableEq, Repr

/-- The bodies of the three closures of helpers.go, run at an instant `now`
with the status writer's response to `sw.Update` given as `swResult`.
Success sets ARN from the instance, the fixed message, Ok state and the
RFC822Z timestamp; Error sets the reason, Error state and the timestamp and
leaves ARN alone; both persist once and log (not propagate) a persistence
failure. DoNothing mutates nothing and never calls the writer. -/
def applyStatusUpdater (u : StatusUpdater) (ins : Instance)
    (st : AWSObjectStatus) (now : GoTime) (swResult : Option GoError) :
    UpdaterOutcome :=
  match u with
  | .success =>
    { status := { st with
        ARN := ins.arn
        Message := "Succesfully reconciled"
        State := .OkSyncState
        LastSyncAttempt := formatRFC822Z now }
      persistCalls := 1
      logged := match swResult with | some e => [e] | none => [] }
  | .error reason =>
    { status := { st with
        Message := reason
        State := .ErrorSyncState
        LastSyncAttempt := formatRFC822Z now }
      persistCalls := 1
      logged := match swResult with | some e => [e] | none => [] }
  | .doNothing => { status := st, persistCalls := 0, logged := [] }

/-- `errWithStatus` of helpers.go: sets Message to the original error's text
and State to Error, persists, and returns the persistence error if the
persist failed, the original error otherwise. Result: (mutated status,
returned error). -/
def errWithStatus (st : AWSObjectStatus) (err : GoError)
    (swResult : Option GoError) : AWSObjectStatus × GoError :=
  let st' := { st with Message := err.errText, State := .ErrorSyncState }
  match swResult with
  | some perr => (st', perr)
  | none => (st', err)

/-- One entry of the list `ListPolicyVersions` returns (`VersionId` field). -/
structure PolicyVersion where
  versionId : String
deriving DecidableEq, Repr

/-- `DeletePolicyVersion` of helpers.go: one provider call, whose response
the environment supplies as a function of policy ARN and version id. -/
def DeletePolicyVersion (delResp : String → String → Option GoError)
    (policyARN : String) (versionID : String) : Option GoError :=
  delResp policyARN versionID

/-- The deletion loop of `CleanUpPolicyVersions`: `for i := len-1; i >= 4;
i--`, deleting `versions[i]` and aborting on the first failure. Returns the
returned error and the trace of version ids passed to `DeletePolicyVersion`
in call order. -/
def pruneFrom (delResp : String → String → Option GoError)
    (policyARN : String) (versions : List PolicyVersion) :
    Nat → Option GoError × List String
  | 0 => (none, [])
  | i + 1 =>
    if 4 ≤ i + 1 ∧ i + 1 < versions.length then
      match DeletePolicyVersion delResp policyARN
          ((versions.getD (i + 1) ⟨""⟩).versionId) with
      | some e => (some e, [(versions.getD (i + 1) ⟨""⟩).versionId])
      | none =>
        ((pruneFrom delResp policyARN versions i).1,
          (versions.getD (i + 1) ⟨""⟩).versionId ::
            (pruneFrom delResp policyARN versions i).2)
    else (none, [])

/-- `CleanUpPolicyVersions` of helpers.go, with `maxVersions = 4`: on a list
failure return that error; on a list of at most 4 versions do nothing;
otherwise delete from the last index down to index 4. Returns the returned
error and the trace of deletion calls. -/
def CleanUpPolicyVersions (listResult : Except GoError (List PolicyVersion))
    (delResp : String → String → Option GoError) (policyARN : String) :
    Option GoError × List String :=
  match listResult with
  | .error e => (some e, [])
  | .ok versions =>
    if versions.length ≤ 4 then (none, [])
    else pruneFrom delResp policyARN versions (versions.length - 1)

/-- Spec-side description of the pruning pass for claim C2: issue the given
deletion calls in order, stop at the first failure and return its error. -/
def firstFailurePrefix (del : String → Option GoError) :
    List String → Option GoError × List String
  | [] => (none, [])
  | vid :: rest =>
    match del vid with
    | some e => (some e, [vid])
    | none =>
      ((firstFailurePrefix del rest).1, vid :: (firstFailurePrefix del rest).2)

/-- Spec-side target list for claim C2: the version ids at indices N−1 down
to 4, i.e. the entries beyond the retention boundary in decreasing index
order. -/
def tailIdsDescending (versions : List PolicyVersion) : List String :=
  (List.range (versions.length - 4)).map
    (fun k => (versions.getD (versions.length - 1 - k) ⟨""⟩).versionId)

/-! ## Theorems -/

/-- Claim C3: when the pre-check returns a non-nil error `e`, each of
`CreateAWSObject`, `UpdateAWSObject` and `DeleteAWSObject` returns an Error
Status Updater carrying `e`'s message text together with `e` itself, and
invokes no provider operation on the instance (empty trace). -/
theorem preCheck_failure_short_circuits (ins : Instance) (e : GoError) :
    CreateAWSObject ins (some e) = (ErrorStatusUpdater e.errText, some e, []) ∧
    UpdateAWSObject ins (some e) = (ErrorStatusUpdater e.errText, some e, []) ∧
    DeleteAWSObject ins (some e) = (ErrorStatusUpdater e.errText, some e, []) :=
  ⟨rfl, rfl, rfl⟩

/-- Claim C4: `ignoreDoesNotExistError` returns nil on nil, returns nil on
an instance error whose code is the "not yet created" code, and is the
identity on every other error value. -/
theorem ignoreDoesNotExistError_cases :
    ignoreDoesNotExistError none = none ∧
    (∀ msg, ignoreDoesNotExistError
        (some (.instanceErr .ErrAWSInstanceNotYetCreated msg)) = none) ∧
    (∀ e : GoError,
      (∀ msg, e ≠ .instanceErr .ErrAWSInstanceNotYetCreated msg) →
      ignoreDoesNotExistError (some e) = some e) := by
  refine ⟨rfl, fun msg => rfl, fun e h => ?_⟩
  cases e with
  | instanceErr code msg =>
    cases code with
    | ErrAWSInstanceNotYetCreated => exact absurd rfl (h msg)
    | OtherCode name => simp [ignoreDoesNotExistError]
  | simpleErr msg => rfl

/-- Witness for C4 at a generic (non-instance) error. -/
theorem ignoreDoesNotExistError_cases_witness :
    ignoreDoesNotExistError (some (.simpleErr "boom")) =
      some (.simpleErr "boom") :=
  ignoreDoesNotExistError_cases.2.2 (.simpleErr "boom") (by simp)

/-- Claim C5: with a nil pre-check result and a nil operation result,
`CreateAWSObject` (and `UpdateAWSObject`) returns the Success Status Updater
and a nil error, and applying that updater sets State to Ok, ARN to the
instance's resolved ARN string and Message to "Succesfully reconciled". -/
theorem dispatcher_success_path (cr up de : Option GoError) (arn : String)
    (ins : Instance) (st : AWSObjectStatus) (now : GoTime)
    (swr : Option GoError) :
    CreateAWSObject ⟨none, up, de, arn⟩ none =
      (SuccessStatusUpdater, none, [.create]) ∧
    UpdateAWSObject ⟨cr, none, de, arn⟩ none =
      (SuccessStatusUpdater, none, [.update]) ∧
    (applyStatusUpdater SuccessStatusUpdater ins st now swr).status =
      { st with
        ARN := ins.arn
        Message := "Succesfully reconciled"
        State := .OkSyncState
        LastSyncAttempt := formatRFC822Z now } :=
  ⟨rfl, rfl, rfl⟩

/-- Claim C6: a persistence failure is handled asymmetrically. The Success
and Error updaters mutate the status identically whether or not the
persistence call fails, and merely log the persistence error; whereas
`errWithStatus`, after setting Message to the original error's text and
State to Error, returns the persistence error when the persist fails
(shadowing the original error) and the original error otherwise. -/
theorem status_persistence_asymmetry (ins : Instance) (st : AWSObjectStatus)
    (now : GoTime) (perr orig : GoError) (reason : String) :
    (applyStatusUpdater SuccessStatusUpdater ins st now (some perr)).status =
      (applyStatusUpdater SuccessStatusUpdater ins st now none).status ∧
    (applyStatusUpdater SuccessStatusUpdater ins st now (some perr)).logged =
      [perr] ∧
    (applyStatusUpdater (ErrorStatusUpdater reason) ins st now
        (some perr)).status =
      (applyStatusUpdater (ErrorStatusUpdater reason) ins st now none).status ∧
    (applyStatusUpdater (ErrorStatusUpdater reason) ins st now
        (some perr)).logged = [perr] ∧
    errWithStatus st orig (some perr) =
      ({ st with Message := orig.errText, State := .ErrorSyncState }, perr) ∧
    errWithStatus st orig none =
      ({ st with Message := orig.errText, State := .ErrorSyncState }, orig) :=
  ⟨rfl, rfl, rfl, rfl, rfl, rfl⟩

/-- Counterexample to claim C7 as stated: at 5 Mar 2021 09:07:37 −07:00 the
Success updater stamps "05 Mar 21 09:07 -0700", which is not the claimed
day-month-year hour:minute:second zone rendering (no seconds appear). -/
theorem lastSyncAttempt_format_counterexample :
    (applyStatusUpdater SuccessStatusUpdater ⟨none, none, none, "arn:x"⟩
        ⟨"", "", .UnsetSyncState, ""⟩
        ⟨2021, .mar, 5, 9, 7, 37, -420⟩ none).status.LastSyncAttempt ≠
      specClaimedTimestampFormat ⟨2021, .mar, 5, 9, 7, 37, -420⟩ := by
  decide

/-- Claim C7 as amended: applying a Success or Error Status Updater sets
LastSyncAttempt to the current time rendered in Go's RFC822Z layout —
day-month-year, then hour:minute (no seconds), then a numeric zone offset;
in particular the rendering ignores the seconds of the instant. -/
theorem lastSyncAttempt_rfc822Z (ins : Instance) (st : AWSObjectStatus)
    (now : GoTime) (swr : Option GoError) (reason : String) (s : Nat) :
    (applyStatusUpdater SuccessStatusUpdater ins st now
        swr).status.LastSyncAttempt = formatRFC822Z now ∧
    (applyStatusUpdater (ErrorStatusUpdater reason) ins st now
        swr).status.LastSyncAttempt = formatRFC822Z now ∧
    formatRFC822Z { now with second := s } = formatRFC822Z now :=
  ⟨rfl, rfl, rfl⟩

/-- Claim C8: applying an Error Status Updater sets Message to the reason,
State to Error and LastSyncAttempt to the stamped time, and leaves the ARN
field (and with it every other status field) unchanged. -/
theorem errorStatusUpdater_frame (reason : String) (ins : Instance)
    (st : AWSObjectStatus) (now : GoTime) (swr : Option GoError) :
    (applyStatusUpdater (ErrorStatusUpdater reason) ins st now swr).status =
      { st with
        Message := reason
        State := .ErrorSyncState
        LastSyncAttempt := formatRFC822Z now } ∧
    (applyStatusUpdater (ErrorStatusUpdater reason) ins st now
        swr).status.ARN = st.ARN :=
  ⟨rfl, rfl⟩

/-- Claim C9: `errWithStatus` mutates only the Message and State fields of
the status record; ARN and LastSyncAttempt keep their prior values — in
particular no timestamp is stamped before persisting. -/
theorem errWithStatus_frame (st : AWSObjectStatus) (orig : GoError)
    (swr : Option GoError) :
    (errWithStatus st orig swr).1 =
      { st with Message := orig.errText, State := .ErrorSyncState } ∧
    (errWithStatus st orig swr).1.ARN = st.ARN ∧
    (errWithStatus st orig swr).1.LastSyncAttempt = st.LastSyncAttempt := by
  cases swr <;> exact ⟨rfl, rfl, rfl⟩

/-- Claim C1: with a nil pre-check result, `DeleteAWSObject` returns the
DoNothing updater and a nil error whenever the classifier maps the delete
outcome to nil (including a nil outcome), and applying that updater leaves
the status record unchanged with no persistence call; for any unclassified
delete error `e` it returns an Error updater carrying `e`'s text together
with the original error `e`. -/
theorem deleteAWSObject_classifier_dispatch (ins : Instance)
    (st : AWSObjectStatus) (now : GoTime) (swr : Option GoError) :
    (ignoreDoesNotExistError ins.deleteResult = none →
      DeleteAWSObject ins none = (DoNothingStatusUpdater, none, [.delete]) ∧
      applyStatusUpdater DoNothingStatusUpdater ins st now swr =
        { status := st, persistCalls := 0, logged := [] }) ∧
    (∀ e, ins.deleteResult = some e →
      ignoreDoesNotExistError (some e) ≠ none →
      DeleteAWSObject ins none =
        (ErrorStatusUpdater e.errText, some e, [.delete])) := by
  constructor
  · intro h
    refine ⟨?_, rfl⟩
    unfold DeleteAWSObject
    cases hd : ins.deleteResult with
    | none => rfl
    | some e =>
      rw [hd] at h
      simp [h]
  · intro e he hne
    unfold DeleteAWSObject
    rw [he]
    simp [hne]

/-- Witness for C1: the classified branch at an "already gone" instance
error, and the unclassified branch at a generic error. -/
theorem deleteAWSObject_classifier_dispatch_witness :
    (DeleteAWSObject
        ⟨none, none, some (.instanceErr .ErrAWSInstanceNotYetCreated "gone"),
          "a"⟩ none = (DoNothingStatusUpdater, none, [.delete]) ∧
      applyStatusUpdater DoNothingStatusUpdater
        ⟨none, none, some (.instanceErr .ErrAWSInstanceNotYetCreated "gone"),
          "a"⟩ ⟨"r", "m", .UnsetSyncState, "t"⟩ ⟨2021, .jan, 1, 0, 0, 0, 0⟩
        none =
        { status := ⟨"r", "m", .UnsetSyncState, "t"⟩, persistCalls := 0,
          logged := [] }) ∧
    DeleteAWSObject ⟨none, none, some (.simpleErr "bad"), "a"⟩ none =
      (ErrorStatusUpdater "bad", some (.simpleErr "bad"), [.delete]) := by
  refine ⟨(deleteAWSObject_classifier_dispatch _ _ _ _).1 (by decide), ?_⟩
  exact (deleteAWSObject_classifier_dispatch
      ⟨none, none, some (.simpleErr "bad"), "a"⟩
      ⟨"r", "m", .UnsetSyncState, "t"⟩ ⟨2021, .jan, 1, 0, 0, 0, 0⟩ none).2
    (.simpleErr "bad") rfl (by decide)

/-- `removeString` is exactly a filter: it drops the occurrences of `s` and
keeps every other element in order. -/
theorem removeString_eq_filter (xs : List String) (s : String) :
    removeString xs s = xs.filter (fun x => x ≠ s) := by
  induction xs with
  | nil => rfl
  | cons item rest ih =>
    by_cases h : item = s <;> simp [removeString, h, ih]

/-- After removing `s`, the scan for `s` fails. -/
theorem containsString_removeString (xs : List String) (s : String) :
    containsString (removeString xs s) s = false := by
  induction xs with
  | nil => rfl
  | cons item rest ih =>
    by_cases h : item = s <;> simp [removeString, containsString, h, ih]

/-- Claim C10: `removeString xs s` is `xs` with every occurrence of `s`
removed and the relative order of the other elements preserved (it equals
the corresponding filter); consequently `containsString` no longer finds
`s` in the result, and if `s` does not occur in `xs` the result is `xs`
itself. -/
theorem removeString_spec (xs : List String) (s : String) :
    removeString xs s = xs.filter (fun x => x ≠ s) ∧
    containsString (removeString xs s) s = false ∧
    (containsString xs s = false → removeString xs s = xs) := by
  refine ⟨removeString_eq_filter xs s, containsString_removeString xs s, ?_⟩
  induction xs with
  | nil => intro _; rfl
  | cons item rest ih =>
    intro h
    by_cases hi : item = s
    · rw [containsString, if_pos hi] at h
      exact absurd h (by simp)
    · rw [containsString, if_neg hi] at h
      rw [removeString, if_neg hi, ih h]

/-- Witness for C10 on a list not containing the removed string. -/
theorem removeString_spec_witness :
    containsString ["a", "b"] "c" = false ∧
    removeString ["a", "b"] "c" = ["a", "b"] :=
  ⟨by decide, (removeString_spec ["a", "b"] "c").2.2 (by decide)⟩

/-- The deletion loop of `CleanUpPolicyVersions`, started at index `i`,
issues exactly the deletions of the version ids at indices `i`, `i−1`, …,
`4`, in that order, stopping at the first failure and returning its error. -/
theorem pruneFrom_eq_firstFailurePrefix
    (delResp : String → String → Option GoError) (arn : String)
    (versions : List PolicyVersion) :
    ∀ i, i < versions.length →
      pruneFrom delResp arn versions i =
        firstFailurePrefix (delResp arn)
          ((List.range (i - 3)).map
            (fun k => (versions.getD (i - k) ⟨""⟩).versionId)) := by
  intro i
  induction i with
  | zero =>
    intro _
    simp [pruneFrom, firstFailurePrefix]
  | succ m ih =>
    intro hlt
    by_cases h4 : 4 ≤ m + 1
    · have hrange : m + 1 - 3 = (m - 3) + 1 := by omega
      have hm : m < versions.length := by omega
      have hfun : ((fun k => (versions.getD (m + 1 - k) ⟨""⟩).versionId) ∘
          Nat.succ) = fun k => (versions.getD (m - k) ⟨""⟩).versionId := by
        funext k
        simp [Nat.succ_sub_succ]
      rw [pruneFrom, if_pos ⟨h4, hlt⟩, hrange, List.range_succ_eq_map,
        List.map_cons, List.map_map, firstFailurePrefix, hfun]
      simp only [Nat.sub_zero, DeletePolicyVersion]
      cases hdel : delResp arn ((versions.getD (m + 1) ⟨""⟩).versionId) with
      | some e => rfl
      | none => rw [ih hm]
    · have h3 : m + 1 - 3 = 0 := by omega
      rw [pruneFrom, if_neg (by omega)]
      rw [h3]
      rfl

/-- Claim C2: on a successfully listed list of N versions,
`CleanUpPolicyVersions` makes no deletion call and returns nil when N ≤ 4;
when N > 4 it behaves as the first-failure prefix of the deletion calls on
the entries at indices N−1 down to 4 (decreasing index order): all N−4 of
them when every call succeeds — the target list has length N−4 — and, on a
failure, no further deletion with that call's error returned. -/
theorem cleanUpPolicyVersions_retention (versions : List PolicyVersion)
    (delResp : String → String → Option GoError) (arn : String) :
    CleanUpPolicyVersions (.ok versions) delResp arn =
      (if versions.length ≤ 4 then (none, [])
       else firstFailurePrefix (delResp arn) (tailIdsDescending versions)) ∧
    (tailIdsDescending versions).length = versions.length - 4 := by
  constructor
  · by_cases h : versions.length ≤ 4
    · simp [CleanUpPolicyVersions, h]
    · rw [CleanUpPolicyVersions, if_neg h, if_neg h]
      have hlt : versions.length - 1 < versions.length := by omega
      rw [pruneFrom_eq_firstFailurePrefix delResp arn versions _ hlt]
      have h4 : versions.length - 1 - 3 = versions.length - 4 := by omega
      rw [tailIdsDescending, h4]
  · simp [tailIdsDescending]
